import Mathlib

/-!
Verification of the book_loader repository core against its specification.

The definitions below are a shallow embedding of the Python source:

* `core/kobo/library.py` — Kobo user-key derivation and SQLite snapshot;
* `core/kobo/decryptor.py` — KEPUB trial decryption;
* `core/adobe/account.py` — authorization-state queries;
* `core/adobe/fulfill.py` — ACSM fulfillment control flow.

External primitives (SHA-256, AES-ECB) are parameters of the embedding:
the theorems hold for every instantiation, and witnesses instantiate them
with small concrete functions.  Bytes are modelled as `List Nat` with each
entry below 256 where it matters.
-/

namespace BookLoader

/-! ## Kobo user-key derivation (`core/kobo/library.py`) -/

/-- `KOBO_HASH_KEYS` from `library.py`: the fixed hash-salt list. -/
def KOBO_HASH_KEYS : List String := ["88b3a2e13", "XzUhGYdFp", "NoCanLook", "QJhwzAtXL"]

/-- Python `s.encode("ascii")` on the ASCII strings used here: the list of
character codes. -/
def encodeAscii (s : String) : List Nat := s.data.map Char.toNat

/-- ASCII code of the lowercase hex digit for `n < 16` (as produced by
Python `hashlib.sha256(...).hexdigest()`). -/
def hexDigitCode (n : Nat) : Nat := if n < 10 then 48 + n else 87 + n

/-- Hex-encode a byte list into the ASCII codes of its lowercase hex
digits, as `hexdigest()` does on the raw digest. -/
def hexEncode (l : List Nat) : List Nat :=
  l.flatMap (fun b => [hexDigitCode (b / 16), hexDigitCode (b % 16)])

/-- Numeric value of an ASCII hex-digit code (as `binascii.a2b_hex` reads
one character). -/
def hexCharVal (c : Nat) : Nat :=
  if 97 ≤ c then c - 87 else if 65 ≤ c then c - 55 else c - 48

/-- `binascii.a2b_hex`: pair up hex-digit codes into bytes. -/
def a2b_hex : List Nat → List Nat
  | c1 :: c2 :: rest => (hexCharVal c1 * 16 + hexCharVal c2) :: a2b_hex rest
  | _ => []

/-- `KoboLibrary._compute_userkeys(macaddr)` from `library.py`, with the
SHA-256 primitive (raw 32-byte digest) as a parameter `sha256`:
for each hash salt, `deviceid = sha256(salt + mac).hexdigest()`, and for
each user id the candidate key is
`binascii.a2b_hex(sha256(deviceid + userid).hexdigest()[32:])`. -/
def computeUserkeys (sha256 : List Nat → List Nat) (userids : List String)
    (macaddr : String) : List (List Nat) :=
  KOBO_HASH_KEYS.flatMap (fun hashKey =>
    let deviceid := hexEncode (sha256 (encodeAscii (hashKey ++ macaddr)))
    userids.map (fun userid =>
      a2b_hex ((hexEncode (sha256 (deviceid ++ encodeAscii userid))).drop 32)))

/-- `KoboLibrary.userkeys` from `library.py`: extend the candidate list
with `_compute_userkeys(mac)` for every machine MAC address. -/
def userkeys (sha256 : List Nat → List Nat) (macaddrs : List String)
    (userids : List String) : List (List Nat) :=
  macaddrs.flatMap (fun macaddr => computeUserkeys sha256 userids macaddr)

/-- The candidate key as the specification words it: bytes 16..32 of the
raw digest `SHA256(hex(SHA256(salt || mac)) || uid)`. -/
def specCandidate (sha256 : List Nat → List Nat) (salt mac uid : String) : List Nat :=
  (sha256 (hexEncode (sha256 (encodeAscii (salt ++ mac))) ++ encodeAscii uid)).drop 16

lemma hexCharVal_hexDigitCode (d : Nat) (h : d < 16) :
    hexCharVal (hexDigitCode d) = d := by
  unfold hexCharVal hexDigitCode
  rcases Nat.lt_or_ge d 10 with h10 | h10
  · simp only [if_pos h10]
    have : ¬ 97 ≤ 48 + d := by omega
    rw [if_neg this]
    have : ¬ 65 ≤ 48 + d := by omega
    rw [if_neg this]
    omega
  · simp only [if_neg (by omega : ¬ d < 10)]
    have : 97 ≤ 87 + d := by omega
    rw [if_pos this]
    omega

lemma hexEncode_cons (b : Nat) (t : List Nat) :
    hexEncode (b :: t) = hexDigitCode (b / 16) :: hexDigitCode (b % 16) :: hexEncode t := by
  simp [hexEncode]

lemma a2b_hex_hexEncode (l : List Nat) (h : ∀ b ∈ l, b < 256) :
    a2b_hex (hexEncode l) = l := by
  induction l with
  | nil => simp [hexEncode, a2b_hex]
  | cons b t ih =>
    rw [hexEncode_cons, a2b_hex]
    have hb : b < 256 := h b (List.mem_cons_self b t)
    have hdiv : b / 16 < 16 := by omega
    have hmod : b % 16 < 16 := by omega
    rw [hexCharVal_hexDigitCode _ hdiv, hexCharVal_hexDigitCode _ hmod]
    rw [ih (fun x hx => h x (List.mem_cons_of_mem _ hx))]
    congr 1
    omega

lemma hexEncode_append (l₁ l₂ : List Nat) :
    hexEncode (l₁ ++ l₂) = hexEncode l₁ ++ hexEncode l₂ := by
  simp [hexEncode]

lemma hexEncode_length (l : List Nat) : (hexEncode l).length = 2 * l.length := by
  induction l with
  | nil => simp [hexEncode]
  | cons b t ih => rw [hexEncode_cons]; simp at ih ⊢; omega

/-- Hex-decoding characters 32.. of the hex encoding of a 32-byte digest
gives bytes 16.. of the raw digest. -/
lemma a2b_hex_drop32 (l : List Nat) (hlen : l.length = 32)
    (hb : ∀ b ∈ l, b < 256) :
    a2b_hex ((hexEncode l).drop 32) = l.drop 16 := by
  have hsplit : l = l.take 16 ++ l.drop 16 := (List.take_append_drop 16 l).symm
  have htk : (hexEncode (l.take 16)).length = 32 := by
    rw [hexEncode_length, List.length_take]
    omega
  calc a2b_hex ((hexEncode l).drop 32)
      = a2b_hex ((hexEncode (l.take 16 ++ l.drop 16)).drop 32) := by rw [← hsplit]
    _ = a2b_hex ((hexEncode (l.take 16) ++ hexEncode (l.drop 16)).drop 32) := by
        rw [hexEncode_append]
    _ = a2b_hex (hexEncode (l.drop 16)) := by
        rw [← htk, List.drop_left]
    _ = l.drop 16 := a2b_hex_hexEncode _ (fun b hbm => hb b (List.mem_of_mem_drop hbm))

lemma length_spec_flatMap (sha256 : List Nat → List Nat)
    (userids : List String) (macaddrs : List String) :
    (macaddrs.flatMap (fun mac => KOBO_HASH_KEYS.flatMap (fun salt =>
        userids.map (fun uid => specCandidate sha256 salt mac uid)))).length
      = 4 * (macaddrs.length * userids.length) := by
  induction macaddrs with
  | nil => simp
  | cons m ms ih =>
    rw [List.flatMap_cons, List.length_append, ih]
    have h4 : (KOBO_HASH_KEYS.flatMap (fun salt =>
        userids.map (fun uid => specCandidate sha256 salt m uid))).length
        = 4 * userids.length := by
      simp [KOBO_HASH_KEYS]
      omega
    rw [h4]
    simp only [List.length_cons]
    ring

lemma computeUserkeys_eq_spec (sha256 : List Nat → List Nat)
    (hlen : ∀ s, (sha256 s).length = 32)
    (hbyte : ∀ s, ∀ b ∈ sha256 s, b < 256)
    (userids : List String) (macaddr : String) :
    computeUserkeys sha256 userids macaddr
      = KOBO_HASH_KEYS.flatMap (fun salt =>
          userids.map (fun uid => specCandidate sha256 salt macaddr uid)) := by
  unfold computeUserkeys
  apply List.flatMap_congr
  intro salt _
  apply List.map_congr_left
  intro uid _
  exact a2b_hex_drop32 _ (hlen _) (hbyte _)

/-- Claim C1: for every machine MAC list `macaddrs`, Kobo user-id list
`userids` and the fixed salt list, `KoboLibrary.userkeys` produces exactly,
for each (salt, mac, uid) combination, the 16 raw bytes obtained by
hex-decoding characters 32..63 of `hex(SHA256(hex(SHA256(salt||mac))||uid))`
— equivalently bytes 16..32 of the raw digest — giving `4 * |M| * |U|`
16-byte candidates (hence at most that many distinct ones). -/
theorem userkeys_exactly_all_combinations (sha256 : List Nat → List Nat)
    (hlen : ∀ s, (sha256 s).length = 32)
    (hbyte : ∀ s, ∀ b ∈ sha256 s, b < 256)
    (macaddrs userids : List String) :
    userkeys sha256 macaddrs userids
      = macaddrs.flatMap (fun mac => KOBO_HASH_KEYS.flatMap (fun salt =>
          userids.map (fun uid => specCandidate sha256 salt mac uid)))
    ∧ (∀ k, k ∈ userkeys sha256 macaddrs userids ↔
        ∃ salt ∈ KOBO_HASH_KEYS, ∃ mac ∈ macaddrs, ∃ uid ∈ userids,
          k = specCandidate sha256 salt mac uid)
    ∧ (userkeys sha256 macaddrs userids).length = 4 * (macaddrs.length * userids.length)
    ∧ (∀ k ∈ userkeys sha256 macaddrs userids, k.length = 16) := by
  have heq : userkeys sha256 macaddrs userids
      = macaddrs.flatMap (fun mac => KOBO_HASH_KEYS.flatMap (fun salt =>
          userids.map (fun uid => specCandidate sha256 salt mac uid))) := by
    unfold userkeys
    apply List.flatMap_congr
    intro mac _
    exact computeUserkeys_eq_spec sha256 hlen hbyte userids mac
  refine ⟨heq, ?_, ?_, ?_⟩
  · intro k
    rw [heq]
    simp only [List.mem_flatMap, List.mem_map]
    constructor
    · rintro ⟨mac, hmac, salt, hsalt, uid, huid, hk⟩
      exact ⟨salt, hsalt, mac, hmac, uid, huid, hk.symm⟩
    · rintro ⟨salt, hsalt, mac, hmac, uid, huid, hk⟩
      exact ⟨mac, hmac, salt, hsalt, uid, huid, hk.symm⟩
  · rw [heq]
    exact length_spec_flatMap sha256 userids macaddrs
  · intro k hk
    rw [heq] at hk
    simp only [List.mem_flatMap, List.mem_map] at hk
    obtain ⟨mac, _, salt, _, uid, _, hk⟩ := hk
    rw [← hk]
    unfold specCandidate
    rw [List.length_drop, hlen]

/-- Witness for C1 at a concrete digest function and concrete MAC / user
lists: all four conjuncts evaluated at one input. -/
theorem userkeys_exactly_all_combinations_witness :
    (userkeys (fun _ => List.range 32) ["AA:BB:CC:DD:EE:FF"] ["u1"]).length = 4
    ∧ (∀ k ∈ userkeys (fun _ => List.range 32) ["AA:BB:CC:DD:EE:FF"] ["u1"],
        k.length = 16) := by
  have h := userkeys_exactly_all_combinations (fun _ => List.range 32)
    (fun s => by simp)
    (fun s b hb => by
      have : b < 32 := List.mem_range.mp hb
      omega)
    ["AA:BB:CC:DD:EE:FF"] ["u1"]
  refine ⟨?_, h.2.2.2⟩
  have := h.2.2.1
  simpa using this

/-! ## Kobo KEPUB decryptor (`core/kobo/decryptor.py`)

The AES-ECB primitive is a parameter `aes : key → data → Option data`;
`none` models the `ValueError` PyCryptodome raises (bad key size, data not
a multiple of the block size).  The filesystem effects of `decrypt_book`
are captured in the result record: the final outcome, the file present at
the end (if any), every path opened for writing, and rename events. -/

/-- `_unpad` from `decryptor.py`: `pad_len = data[-1]; return data[:-pad_len]`.
`none` models the `IndexError` raised by `data[-1]` on empty input; note
that Python `data[:-0]` is empty and `data[:-p]` for `p > len(data)` is
empty, and that no PKCS#7 validation is performed. -/
def _unpad (data : List Nat) : Option (List Nat) :=
  match data.getLast? with
  | none => none
  | some padLen => some (if padLen = 0 then [] else data.take (data.length - padLen))

/-- Modelled from the spec: valid PKCS#7 padding for 16-byte AES blocks
(the last byte `p` satisfies `1 ≤ p ≤ 16`, at least `p` bytes exist, and
the last `p` bytes all equal `p`).  Used only to state what the spec says
`_unpad` rejects. -/
def validPkcs7 (data : List Nat) : Bool :=
  match data.getLast? with
  | none => false
  | some p => decide (1 ≤ p) && decide (p ≤ 16) && decide (p ≤ data.length)
      && (data.drop (data.length - p)).all (fun b => b == p)

/-- Python `filename.lower()` as a character list. -/
def pyLower (s : String) : List Char := s.data.map Char.toLower

/-- Python `str.endswith` on the lowered character list. -/
def listEndsWith (l : List Char) (suffix : String) : Bool := suffix.data.isSuffixOf l

/-- The `.xhtml` / `.html` / `.htm` test of `_check_decrypted_content`. -/
def isHtmlName (f : String) : Bool :=
  listEndsWith (pyLower f) ".xhtml" || listEndsWith (pyLower f) ".html"
    || listEndsWith (pyLower f) ".htm"

/-- The `.jpg` / `.jpeg` test of `_check_decrypted_content`. -/
def isJpgName (f : String) : Bool :=
  listEndsWith (pyLower f) ".jpg" || listEndsWith (pyLower f) ".jpeg"

/-- `_check_decrypted_content` from `decryptor.py`; `true` means the
function returns without raising `ValueError`. -/
def _check_decrypted_content (filename : String) (contents : List Nat) : Bool :=
  if isHtmlName filename then
    (contents.take 5).all (fun b => !(decide (b < 32) || decide (127 < b)))
  else if isJpgName filename then
    !(decide (3 ≤ contents.length) && !(contents.take 3 == [255, 216, 255]))
  else
    true

/-- Outcome of processing one archive member under one candidate key
(the body of the inner `for entry_name in zin.namelist()` loop). -/
inductive MemberResult where
  | ok (contents : List Nat)
  | valueErr
  | indexErr
deriving DecidableEq

/-- One member of the inner loop of `decrypt_book`: members not in
`book.encrypted_files` are copied verbatim; encrypted members are
unwrapped (page key), decrypted, unpadded and sanity-checked. -/
def processEntry (aes : List Nat → List Nat → Option (List Nat))
    (encFiles : List (String × List Nat)) (userkey : List Nat)
    (name : String) (contents : List Nat) : MemberResult :=
  match encFiles.lookup name with
  | none => .ok contents
  | some wrapped =>
    match aes userkey wrapped with
    | none => .valueErr
    | some pageKey =>
      match aes pageKey contents with
      | none => .valueErr
      | some dec =>
        match _unpad dec with
        | none => .indexErr
        | some plain =>
          if _check_decrypted_content name plain then .ok plain else .valueErr

/-- Result of one candidate key's pass over all members: a full success
with the output entries, a `ValueError` (caught by the loop), or an
`IndexError` (not caught); failures carry the entries already written to
the output archive. -/
inductive TryResult where
  | success (entries : List (String × List Nat))
  | valueErr (written : List (String × List Nat))
  | indexErr (written : List (String × List Nat))
deriving DecidableEq

def TryResult.isValueErr : TryResult → Bool
  | .valueErr _ => true
  | _ => false

def tryKeyGo (aes : List Nat → List Nat → Option (List Nat))
    (encFiles : List (String × List Nat)) (userkey : List Nat) :
    List (String × List Nat) → List (String × List Nat) → TryResult
  | [], acc => .success acc.reverse
  | (name, contents) :: rest, acc =>
    match processEntry aes encFiles userkey name contents with
    | .ok c => tryKeyGo aes encFiles userkey rest ((name, c) :: acc)
    | .valueErr => .valueErr acc.reverse
    | .indexErr => .indexErr acc.reverse

/-- One candidate key's attempt: the body of `for userkey in userkeys`. -/
def tryKey (aes : List Nat → List Nat → Option (List Nat))
    (encFiles : List (String × List Nat)) (userkey : List Nat)
    (entries : List (String × List Nat)) : TryResult :=
  tryKeyGo aes encFiles userkey entries []

/-- Contents of a file on disk: a raw byte copy or a written archive. -/
inductive FileData where
  | raw (bytes : List Nat)
  | zip (entries : List (String × List Nat))
deriving DecidableEq

/-- How `decrypt_book` ends: returning the output path, raising
`KoboDecryptionError`, or an uncaught `IndexError` escaping. -/
inductive DOutcome where
  | returned (path : String)
  | raisedKobo (msg : String)
  | raisedIndex
deriving DecidableEq

/-- Observable result of `decrypt_book`: outcome, the file left at the
end (path and contents), every path opened for writing (in order), and
rename events. -/
structure DecResult where
  outcome : DOutcome
  fileLeft : Option (String × FileData)
  writesTo : List String
  renames : List (String × String)
deriving DecidableEq

/-- ASCII apostrophe, as it appears in the failure message. -/
def singleQuote : String := String.singleton (Char.ofNat 39)

/-- The `KoboDecryptionError` message of `decrypt_book`. -/
def koboFailMsg (title : String) : String :=
  "Failed to decrypt " ++ singleQuote ++ title ++ singleQuote
    ++ " — no valid key found. Make sure you are logged in to Kobo Desktop "
    ++ "with the account that purchased the book."

/-- The `for userkey in userkeys` loop of `decrypt_book`: each iteration
opens the output archive at `outputPath`; on `ValueError` the partial
output is closed and unlinked and the next key is tried; on success the
output remains and the path is returned; an `IndexError` escapes with the
partial output left in place; an exhausted list raises
`KoboDecryptionError`. -/
def decryptLoop (aes : List Nat → List Nat → Option (List Nat))
    (encFiles : List (String × List Nat)) (entries : List (String × List Nat))
    (outputPath : String) (title : String) : List (List Nat) → DecResult
  | [] => ⟨.raisedKobo (koboFailMsg title), none, [], []⟩
  | k :: ks =>
    match tryKey aes encFiles k entries with
    | .success outs => ⟨.returned outputPath, some (outputPath, .zip outs), [outputPath], []⟩
    | .valueErr _ =>
      let r := decryptLoop aes encFiles entries outputPath title ks
      ⟨r.outcome, r.fileLeft, outputPath :: r.writesTo, r.renames⟩
    | .indexErr written => ⟨.raisedIndex, some (outputPath, .zip written), [outputPath], []⟩

/-- `KoboBook` from `library.py`, together with the data `decrypt_book`
reads from its file: the raw bytes (for the DRM-free copy) and the ZIP
member list (for the DRM path). -/
structure KoboBook where
  volumeid : String
  title : String
  hasDrm : Bool
  rawContents : List Nat
  entries : List (String × List Nat)
  encryptedFiles : List (String × List Nat)
deriving DecidableEq

/-- `KoboDecryptor.decrypt_book` from `decryptor.py`. -/
def decrypt_book (aes : List Nat → List Nat → Option (List Nat))
    (book : KoboBook) (userkeys : List (List Nat)) (outputPath : String) : DecResult :=
  if book.hasDrm = false then
    ⟨.returned outputPath, some (outputPath, .raw book.rawContents), [outputPath], []⟩
  else
    decryptLoop aes book.encryptedFiles book.entries outputPath book.title userkeys

/-! ## Shared lemmas about the decryption loop -/

/-- A candidate whose pass fails with a `ValueError` is abandoned: the loop
behaves (outcome and final file) as it does on the remaining candidates. -/
lemma decryptLoop_valueErr_step (aes : List Nat → List Nat → Option (List Nat))
    (encFiles entries : List (String × List Nat)) (outputPath title : String)
    (k : List Nat) (ks : List (List Nat))
    (h : (tryKey aes encFiles k entries).isValueErr = true) :
    (decryptLoop aes encFiles entries outputPath title (k :: ks)).outcome
        = (decryptLoop aes encFiles entries outputPath title ks).outcome
      ∧ (decryptLoop aes encFiles entries outputPath title (k :: ks)).fileLeft
        = (decryptLoop aes encFiles entries outputPath title ks).fileLeft := by
  cases htk : tryKey aes encFiles k entries with
  | success outs => rw [htk] at h; simp [TryResult.isValueErr] at h
  | valueErr w => constructor <;> simp [decryptLoop, htk]
  | indexErr w => rw [htk] at h; simp [TryResult.isValueErr] at h

/-- Structural invariants of the candidate loop: every write goes to the
output path, nothing is ever renamed, and when the loop ends in
`KoboDecryptionError` no file is left. -/
lemma decryptLoop_invariants (aes : List Nat → List Nat → Option (List Nat))
    (encFiles entries : List (String × List Nat)) (outputPath title : String)
    (keys : List (List Nat)) :
    (∀ p ∈ (decryptLoop aes encFiles entries outputPath title keys).writesTo,
        p = outputPath)
      ∧ (decryptLoop aes encFiles entries outputPath title keys).renames = []
      ∧ (∀ m, (decryptLoop aes encFiles entries outputPath title keys).outcome
            = .raisedKobo m →
          (decryptLoop aes encFiles entries outputPath title keys).fileLeft = none) := by
  induction keys with
  | nil => refine ⟨by simp [decryptLoop], by simp [decryptLoop], ?_⟩; intro m _; simp [decryptLoop]
  | cons k ks ih =>
    cases htk : tryKey aes encFiles k entries with
    | success outs =>
      refine ⟨?_, ?_, ?_⟩ <;> simp [decryptLoop, htk]
    | valueErr w =>
      refine ⟨?_, ?_, ?_⟩
      · intro p hp
        simp only [decryptLoop, htk] at hp
        rcases List.mem_cons.mp hp with h | h
        · exact h
        · exact ih.1 p h
      · simp only [decryptLoop, htk]
        exact ih.2.1
      · intro m hm
        simp only [decryptLoop, htk] at hm ⊢
        exact ih.2.2 m hm
    | indexErr w =>
      refine ⟨?_, ?_, ?_⟩ <;> simp [decryptLoop, htk]

/-- When every candidate fails with a caught `ValueError`, the loop raises
`KoboDecryptionError` with the standard message. -/
lemma decryptLoop_all_valueErr (aes : List Nat → List Nat → Option (List Nat))
    (encFiles entries : List (String × List Nat)) (outputPath title : String)
    (keys : List (List Nat))
    (hfail : ∀ k ∈ keys, (tryKey aes encFiles k entries).isValueErr = true) :
    (decryptLoop aes encFiles entries outputPath title keys).outcome
      = .raisedKobo (koboFailMsg title) := by
  induction keys with
  | nil => simp [decryptLoop]
  | cons k ks ih =>
    have hk := hfail k (List.mem_cons_self k ks)
    have hstep := decryptLoop_valueErr_step aes encFiles entries outputPath title k ks hk
    rw [hstep.1]
    exact ih (fun k' hk' => hfail k' (List.mem_cons_of_mem _ hk'))

/-! ## Claims C2, C3, C5, C9, C4 -/

/-- Claim C2 (counterexample): `[1, 2]` does not end in valid PKCS#7
padding, yet `_unpad` does not fail — it silently strips two bytes and
returns the empty list.  So the decryptor has no padding-failure rejection
signal. -/
theorem unpad_invalid_padding_counterexample :
    validPkcs7 [1, 2] = false ∧ _unpad [1, 2] = some [] ∧ _unpad [1, 2] ≠ none := by
  refine ⟨by decide, by decide, by decide⟩

/-- Claim C2 (amended): `_unpad` performs no PKCS#7 validation — it fails
only on empty input (an `IndexError` from `data[-1]`), and otherwise
strips the number of bytes named by the final byte; the per-user-key trial
loop's rejection signal is instead the `ValueError` raised by the content
sanity check, on which it abandons the candidate and continues with the
remaining ones. -/
theorem unpad_strips_without_validation :
    (∀ data : List Nat, _unpad data = none ↔ data = [])
    ∧ (∀ (data : List Nat) (p : Nat), data.getLast? = some p → 0 < p →
        _unpad data = some (data.take (data.length - p)))
    ∧ (∀ (aes : List Nat → List Nat → Option (List Nat))
        (encFiles entries : List (String × List Nat)) (outputPath title : String)
        (k : List Nat) (ks : List (List Nat)),
        (tryKey aes encFiles k entries).isValueErr = true →
        (decryptLoop aes encFiles entries outputPath title (k :: ks)).outcome
          = (decryptLoop aes encFiles entries outputPath title ks).outcome) := by
  refine ⟨?_, ?_, ?_⟩
  · intro data
    cases data with
    | nil => simp [_unpad]
    | cons a t =>
      have : (a :: t).getLast? = some ((a :: t).getLast (by simp)) := by
        rw [List.getLast?_eq_getLast]
      simp [_unpad, this]
  · intro data p hlast hp
    unfold _unpad
    rw [hlast]
    dsimp only
    rw [if_neg (by omega : ¬ p = 0)]
  · intro aes encFiles entries outputPath title k ks h
    exact (decryptLoop_valueErr_step aes encFiles entries outputPath title k ks h).1

/-- Witness for the amended C2 at concrete inputs: a valid padding is
stripped, and a candidate rejected by the sanity check advances the loop. -/
theorem unpad_strips_without_validation_witness :
    _unpad [3, 3, 2, 2] = some [3, 3]
    ∧ (decryptLoop (fun _ c => some c) [("a.xhtml", List.replicate 16 7)]
          [("a.xhtml", [0, 0, 0, 0, 0, 0, 0, 0, 0, 0, 0, 0, 0, 0, 0, 1])]
          "out.epub" "T" [[1]]).outcome
      = (decryptLoop (fun _ c => some c) [("a.xhtml", List.replicate 16 7)]
          [("a.xhtml", [0, 0, 0, 0, 0, 0, 0, 0, 0, 0, 0, 0, 0, 0, 0, 1])]
          "out.epub" "T" []).outcome := by
  constructor
  · have h := unpad_strips_without_validation.2.1 [3, 3, 2, 2] 2 (by decide) (by decide)
    simpa using h
  · exact unpad_strips_without_validation.2.2 (fun _ c => some c) _ _ _ _ _ _ (by decide)

/-- Claim C3 (counterexample): a DRM book with an encrypted member whose
decrypted data is empty makes every candidate fail, yet `decrypt_book`
does not raise `KoboDecryptionError`: the `data[-1]` `IndexError` inside
`_unpad` is not caught by `except ValueError`, it escapes, the next
candidate is never tried, and the partial output file is left at the
output path. -/
theorem decrypt_book_no_pass_counterexample :
    decrypt_book (fun _ c => some c)
        ⟨"v", "T", true, [], [("mime", [9]), ("a.txt", [])],
          [("a.txt", List.replicate 16 7)]⟩
        [[1], [2]] "out.epub"
      = ⟨.raisedIndex, some ("out.epub", .zip [("mime", [9])]), ["out.epub"], []⟩
    ∧ (decrypt_book (fun _ c => some c)
        ⟨"v", "T", true, [], [("mime", [9]), ("a.txt", [])],
          [("a.txt", List.replicate 16 7)]⟩
        [[1], [2]] "out.epub").outcome ≠ DOutcome.raisedKobo (koboFailMsg "T")
    ∧ (decrypt_book (fun _ c => some c)
        ⟨"v", "T", true, [], [("mime", [9]), ("a.txt", [])],
          [("a.txt", List.replicate 16 7)]⟩
        [[1], [2]] "out.epub").fileLeft ≠ none := by
  refine ⟨by decide, by decide, by decide⟩

/-- Claim C3 (amended): for a DRM-protected book, when every candidate
key's pass over the members fails with a caught `ValueError` — in
particular when the candidate list is empty (zero MAC addresses or zero
Kobo users) — `decrypt_book` raises `KoboDecryptionError` whose message
carries the book title, and no output file is left on disk; a candidate
failing with a `ValueError` is abandoned and the next candidate is tried.
(As originally stated the claim fails: a member whose decrypted data is
empty raises an uncaught `IndexError` instead of advancing the loop.) -/
theorem decrypt_book_all_fail_raises_kobo_error
    (aes : List Nat → List Nat → Option (List Nat)) (book : KoboBook)
    (keys : List (List Nat)) (outputPath : String)
    (hdrm : book.hasDrm = true)
    (hfail : ∀ k ∈ keys,
      (tryKey aes book.encryptedFiles k book.entries).isValueErr = true) :
    (decrypt_book aes book keys outputPath).outcome
        = .raisedKobo (koboFailMsg book.title)
    ∧ (∃ pre post : List Char,
        (koboFailMsg book.title).data = pre ++ book.title.data ++ post)
    ∧ (decrypt_book aes book keys outputPath).fileLeft = none
    ∧ (∀ (k : List Nat) (ks : List (List Nat)),
        (tryKey aes book.encryptedFiles k book.entries).isValueErr = true →
        (decrypt_book aes book (k :: ks) outputPath).outcome
          = (decrypt_book aes book ks outputPath).outcome)
    ∧ (∀ (sha256 : List Nat → List Nat) (us : List String), userkeys sha256 [] us = [])
    ∧ (∀ (sha256 : List Nat → List Nat) (ms : List String), userkeys sha256 ms [] = []) := by
  have hne : ¬ book.hasDrm = false := by rw [hdrm]; simp
  refine ⟨?_, ?_, ?_, ?_, ?_, ?_⟩
  · simp only [decrypt_book, if_neg hne]
    exact decryptLoop_all_valueErr aes book.encryptedFiles book.entries outputPath
      book.title keys hfail
  · refine ⟨("Failed to decrypt " ++ singleQuote).data,
      (singleQuote ++ " — no valid key found. Make sure you are logged in to "
        ++ "Kobo Desktop " ++ "with the account that purchased the book.").data, ?_⟩
    simp [koboFailMsg]
  · simp only [decrypt_book, if_neg hne]
    apply (decryptLoop_invariants aes book.encryptedFiles book.entries outputPath
      book.title keys).2.2
    exact decryptLoop_all_valueErr aes book.encryptedFiles book.entries outputPath
      book.title keys hfail
  · intro k ks hk
    simp only [decrypt_book, if_neg hne]
    exact (decryptLoop_valueErr_step aes book.encryptedFiles book.entries outputPath
      book.title k ks hk).1
  · intro sha256 us
    simp [userkeys]
  · intro sha256 ms
    simp [userkeys, computeUserkeys]

/-- Witness for the amended C3: one candidate, rejected by the sanity
check; `decrypt_book` raises `KoboDecryptionError` and leaves no file. -/
theorem decrypt_book_all_fail_raises_kobo_error_witness :
    (decrypt_book (fun _ c => some c)
        ⟨"v", "T", true, [], [("a.xhtml", [0, 0, 0, 0, 0, 0, 0, 0, 0, 0, 0, 0, 0, 0, 0, 1])],
          [("a.xhtml", List.replicate 16 7)]⟩
        [[1]] "out.epub").outcome
      = .raisedKobo (koboFailMsg "T")
    ∧ (decrypt_book (fun _ c => some c)
        ⟨"v", "T", true, [], [("a.xhtml", [0, 0, 0, 0, 0, 0, 0, 0, 0, 0, 0, 0, 0, 0, 0, 1])],
          [("a.xhtml", List.replicate 16 7)]⟩
        [[1]] "out.epub").fileLeft = none := by
  have h := decrypt_book_all_fail_raises_kobo_error (fun _ c => some c)
    ⟨"v", "T", true, [], [("a.xhtml", [0, 0, 0, 0, 0, 0, 0, 0, 0, 0, 0, 0, 0, 0, 0, 1])],
      [("a.xhtml", List.replicate 16 7)]⟩
    [[1]] "out.epub" (by decide) (by decide)
  exact ⟨h.1, h.2.2.1⟩

/-- Claim C5 (counterexample): a successful decryption writes the archive
directly to the final output path — the only write target is `out.epub`,
the temporary path `out.epub.part` is never written, and no rename ever
occurs. -/
theorem decrypt_book_no_part_file_counterexample :
    decrypt_book (fun _ c => some c)
        ⟨"v", "T", true, [], [("a.xhtml", List.replicate 15 32 ++ [1])],
          [("a.xhtml", List.replicate 16 7)]⟩
        [[1]] "out.epub"
      = ⟨.returned "out.epub", some ("out.epub", .zip [("a.xhtml", List.replicate 15 32)]),
          ["out.epub"], []⟩
    ∧ ("out.epub" ++ ".part") ∉ (decrypt_book (fun _ c => some c)
        ⟨"v", "T", true, [], [("a.xhtml", List.replicate 15 32 ++ [1])],
          [("a.xhtml", List.replicate 16 7)]⟩
        [[1]] "out.epub").writesTo := by
  refine ⟨by decide, by decide⟩

/-- Claim C5 (amended): `decrypt_book` writes the output archive directly
to the final output path — every write targets that path, no `.part`
temporary and no rename is used — each failed candidate's partial output
is unlinked before the next candidate is tried, and whenever the function
fails with `KoboDecryptionError` no output file remains.  (An uncaught
`IndexError` from an empty decrypted member does leave the partial file.) -/
theorem decrypt_book_writes_final_path_directly
    (aes : List Nat → List Nat → Option (List Nat)) (book : KoboBook)
    (keys : List (List Nat)) (outputPath : String) :
    (∀ p ∈ (decrypt_book aes book keys outputPath).writesTo, p = outputPath)
    ∧ (decrypt_book aes book keys outputPath).renames = []
    ∧ (∀ m, (decrypt_book aes book keys outputPath).outcome = .raisedKobo m →
        (decrypt_book aes book keys outputPath).fileLeft = none) := by
  by_cases hdrm : book.hasDrm = false
  · refine ⟨?_, ?_, ?_⟩ <;> simp [decrypt_book, hdrm]
  · simp only [decrypt_book, if_neg hdrm]
    exact decryptLoop_invariants aes book.encryptedFiles book.entries outputPath
      book.title keys

/-- Witness for the amended C5 at a concrete failing run: all writes went
to the output path, nothing was renamed, and no file is left after the
`KoboDecryptionError`. -/
theorem decrypt_book_writes_final_path_directly_witness :
    (decrypt_book (fun _ c => some c)
        ⟨"v", "T", true, [], [("b.xhtml", [0, 0, 0, 0, 0, 0, 0, 0, 0, 0, 0, 0, 0, 0, 0, 1])],
          [("b.xhtml", List.replicate 16 7)]⟩
        [[1]] "out.epub").fileLeft = none
    ∧ (decrypt_book (fun _ c => some c)
        ⟨"v", "T", true, [], [("b.xhtml", [0, 0, 0, 0, 0, 0, 0, 0, 0, 0, 0, 0, 0, 0, 0, 1])],
          [("b.xhtml", List.replicate 16 7)]⟩
        [[1]] "out.epub").renames = [] := by
  have h := decrypt_book_writes_final_path_directly (fun _ c => some c)
    ⟨"v", "T", true, [], [("b.xhtml", [0, 0, 0, 0, 0, 0, 0, 0, 0, 0, 0, 0, 0, 0, 0, 1])],
      [("b.xhtml", List.replicate 16 7)]⟩
    [[1]] "out.epub"
  exact ⟨h.2.2 (koboFailMsg "T") (by decide), h.2.1⟩

/-- Claim C9: for a book with `has_drm = false`, `decrypt_book` copies the
input file byte-for-byte to the output path and returns that path; the
result does not depend on the AES primitive or on the candidate key list
(no key is derived, consulted or tried), and it succeeds with an empty
candidate list. -/
theorem decrypt_book_drm_free_copies
    (aes aes' : List Nat → List Nat → Option (List Nat)) (book : KoboBook)
    (keys keys' : List (List Nat)) (outputPath : String)
    (h : book.hasDrm = false) :
    decrypt_book aes book keys outputPath
      = ⟨.returned outputPath, some (outputPath, .raw book.rawContents), [outputPath], []⟩
    ∧ decrypt_book aes book keys outputPath = decrypt_book aes' book keys' outputPath
    ∧ decrypt_book aes book keys outputPath = decrypt_book aes book [] outputPath := by
  refine ⟨?_, ?_, ?_⟩ <;> simp [decrypt_book, h]

/-- Witness for C9: a concrete DRM-free book is copied verbatim. -/
theorem decrypt_book_drm_free_copies_witness :
    decrypt_book (fun _ _ => none)
        ⟨"v", "T", false, [9, 8, 7], [], []⟩ [[1], [2]] "out.epub"
      = ⟨.returned "out.epub", some ("out.epub", .raw [9, 8, 7]), ["out.epub"], []⟩ := by
  exact (decrypt_book_drm_free_copies (fun _ _ => none) (fun _ _ => none)
    ⟨"v", "T", false, [9, 8, 7], [], []⟩ [[1], [2]] [] "out.epub" (by decide)).1

/-- What the specification says the sanity check accepts, stated in its
words: html-ish members must start (first five bytes, or all if shorter)
with printable ASCII `0x20..0x7F`; jpeg members of length at least three
must start `FF D8 FF`; all other members are accepted unconditionally. -/
def specCheckAccepts (filename : String) (contents : List Nat) : Prop :=
  if isHtmlName filename = true then
    ∀ b ∈ contents.take 5, 32 ≤ b ∧ b ≤ 127
  else if isJpgName filename = true then
    3 ≤ contents.length → contents.take 3 = [255, 216, 255]
  else
    True

/-- Claim C4: `_check_decrypted_content` accepts a decrypted member iff
the specification's condition holds: printable-ASCII prefix for
`.xhtml`/`.html`/`.htm`, `FF D8 FF` magic (only when at least 3 bytes are
present) for `.jpg`/`.jpeg`, and no check for any other extension. -/
theorem check_decrypted_content_spec (filename : String) (contents : List Nat) :
    _check_decrypted_content filename contents = true
      ↔ specCheckAccepts filename contents := by
  unfold _check_decrypted_content specCheckAccepts
  by_cases h1 : isHtmlName filename = true
  · simp only [h1, if_pos, if_true]
    rw [List.all_eq_true]
    constructor
    · intro hall b hb
      have := hall b hb
      simp only [Bool.not_eq_true', Bool.or_eq_false_iff, decide_eq_false_iff_not] at this
      omega
    · intro hall b hb
      have := hall b hb
      simp only [Bool.not_eq_true', Bool.or_eq_false_iff, decide_eq_false_iff_not]
      omega
  · have h1f : isHtmlName filename = false := by simpa using h1
    simp only [h1f, Bool.false_eq_true, if_false]
    by_cases h2 : isJpgName filename = true
    · simp only [h2, if_pos]
      simp only [Bool.not_eq_true', Bool.and_eq_false_iff, decide_eq_false_iff_not,
        Bool.not_eq_false', beq_iff_eq]
      constructor
      · intro hok hlen
        rcases hok with h | h
        · omega
        · exact h
      · intro himp
        by_cases hlen : 3 ≤ contents.length
        · exact Or.inr (himp hlen)
        · exact Or.inl hlen
    · have h2f : isJpgName filename = false := by simpa using h2
      simp [h2f]

/-- Witness for C4: the sanity check and the specification condition
agree on a concrete XHTML member starting with printable ASCII. -/
theorem check_decrypted_content_spec_witness :
    _check_decrypted_content "page.xhtml" [60, 63, 120, 109, 108, 200] = true
    ∧ specCheckAccepts "page.xhtml" [60, 63, 120, 109, 108, 200] := by
  have h := check_decrypted_content_spec "page.xhtml" [60, 63, 120, 109, 108, 200]
  exact ⟨by decide, h.mp (by decide)⟩

/-! ## Adobe account (`core/adobe/account.py`) -/

/-- What `get_auth_type` can observe in a parsed `activation.xml`:
whether a `<credentials>` / `<username>` element is found and, if so, its
optional `method` attribute.  (`credentialsMethod` is carried so that the
spec-side definition below can be compared with the code.) -/
structure ActivationDoc where
  credentialsMethod : Option (Option String)
  usernameMethod : Option (Option String)
deriving DecidableEq

/-- `AdobeAccount.get_auth_type` from
`src/book_loader/core/adobe/account.py`: `"none"` when not authorized;
`"unknown"` when parsing raises; otherwise the `<username>` element's
`method` attribute when present and non-empty (Python truthiness), else
`"anonymous"`.  The `<credentials>` element is not consulted. -/
def get_auth_type (authorized : Bool) (doc : Option ActivationDoc) : String :=
  if authorized = false then "none"
  else
    match doc with
    | none => "unknown"
    | some d =>
      match d.usernameMethod with
      | some (some m) => if m = "" then "anonymous" else m
      | _ => "anonymous"

/-- Modelled from the spec: inspect the `<credentials>` element's `method`
attribute, falling back to the `<username>` element's `method` attribute
when `<credentials>` is absent; `"anonymous"` when no method attribute is
present; `"unknown"` on parse failure; `"none"` when not authorized. -/
def get_auth_type_specModel (authorized : Bool) (doc : Option ActivationDoc) : String :=
  if authorized = false then "none"
  else
    match doc with
    | none => "unknown"
    | some d =>
      match d.credentialsMethod with
      | some (some m) => m
      | some none => "anonymous"
      | none =>
        match d.usernameMethod with
        | some (some m) => m
        | _ => "anonymous"

/-- Claim C6 (counterexample): on an activation document whose
`<credentials>` element carries `method="AdobeID"` while the `<username>`
element has no `method` attribute, the code returns `"anonymous"` whereas
the claimed credentials-first rule returns `"AdobeID"`. -/
theorem get_auth_type_counterexample :
    get_auth_type true (some ⟨some (some "AdobeID"), some none⟩) = "anonymous"
    ∧ get_auth_type_specModel true (some ⟨some (some "AdobeID"), some none⟩) = "AdobeID"
    ∧ get_auth_type true (some ⟨some (some "AdobeID"), some none⟩)
        ≠ get_auth_type_specModel true (some ⟨some (some "AdobeID"), some none⟩) := by
  refine ⟨by decide, by decide, by decide⟩

/-- Claim C6 (amended): `get_auth_type` returns `"none"` when not
authorized, `"unknown"` on parse failure, the `<username>` element's
`method` attribute when present and non-empty, and `"anonymous"` when the
`<username>` element or its `method` attribute is absent or empty; the
`<credentials>` element is never consulted (the result is invariant in
it). -/
theorem get_auth_type_username_only :
    (∀ d, get_auth_type false d = "none")
    ∧ get_auth_type true none = "unknown"
    ∧ (∀ cm m, m ≠ "" → get_auth_type true (some ⟨cm, some (some m)⟩) = m)
    ∧ (∀ cm, get_auth_type true (some ⟨cm, some none⟩) = "anonymous"
        ∧ get_auth_type true (some ⟨cm, none⟩) = "anonymous"
        ∧ get_auth_type true (some ⟨cm, some (some "")⟩) = "anonymous")
    ∧ (∀ cm cm' um, get_auth_type true (some ⟨cm, um⟩)
        = get_auth_type true (some ⟨cm', um⟩)) := by
  refine ⟨fun d => rfl, rfl, ?_, fun cm => ⟨rfl, rfl, rfl⟩, ?_⟩
  · intro cm m hm
    simp [get_auth_type, hm]
  · intro cm cm' um
    cases um with
    | none => rfl
    | some u => cases u <;> rfl

/-- Witness for the amended C6: a non-empty method attribute is returned
as is. -/
theorem get_auth_type_username_only_witness :
    get_auth_type true (some ⟨none, some (some "AdobeID")⟩) = "AdobeID" := by
  exact get_auth_type_username_only.2.2.1 none "AdobeID" (by decide)

/-- `AdobeAccount.is_authorized` from
`src/book_loader/core/adobe/account.py`, over the existence flags of the
four files: `activation.xml`, `device.xml`, `devicesalt`,
`activation.dat`. -/
def is_authorized (activationXml deviceXml devicesalt activationDat : Bool) : Bool :=
  (activationXml && deviceXml && devicesalt) || activationDat

/-- Claim C7: `is_authorized` is true iff the standard triple
(`activation.xml`, `device.xml`, `devicesalt`) all exist, or the ADE file
`activation.dat` exists. -/
theorem is_authorized_iff (ax dx ds ad : Bool) :
    is_authorized ax dx ds ad = true
      ↔ ((ax = true ∧ dx = true ∧ ds = true) ∨ ad = true) := by
  simp [is_authorized, Bool.and_eq_true, Bool.or_eq_true, and_assoc]

/-- Witness for C7: the ADE file alone authorizes. -/
theorem is_authorized_iff_witness : is_authorized false false false true = true := by
  exact (is_authorized_iff false false false true).mpr (Or.inr rfl)

/-! ## Kobo library snapshot (`core/kobo/library.py`) -/

/-- The snapshot bytes `KoboLibrary.__init__` writes to the temporary
database: the first 18 bytes of `Kobo.sqlite`, then `0x01 0x01` in place
of bytes 18 and 19, then the remainder. -/
def snapshotBytes (db : List Nat) : List Nat := db.take 18 ++ [1, 1] ++ db.drop 20

/-- `KoboLibrary.close`: the temporary snapshot file is unlinked from the
file store. -/
def closeLibrary (tmpName : String) (files : List (String × List Nat)) :
    List (String × List Nat) :=
  files.filter (fun pr => !(pr.1 == tmpName))

/-- Claim C8: the snapshot is a byte-for-byte copy of the database except
that bytes 18 and 19 are `0x01`, and closing the library removes the
snapshot file. -/
theorem snapshot_patches_bytes_18_19 (db : List Nat) (h : 20 ≤ db.length) :
    (snapshotBytes db).length = db.length
    ∧ (∀ i, i < db.length →
        (snapshotBytes db)[i]? = if i = 18 ∨ i = 19 then some 1 else db[i]?)
    ∧ (∀ (tmpName : String) (files : List (String × List Nat)) (contents : List Nat),
        (tmpName, contents) ∉ closeLibrary tmpName files) := by
  refine ⟨?_, ?_, ?_⟩
  · simp only [snapshotBytes, List.length_append, List.length_take, List.length_drop,
      List.length_cons, List.length_nil]
    omega
  · intro i hi
    have htake : (db.take 18).length = 18 := by
      rw [List.length_take]; omega
    have hlen2 : (db.take 18 ++ [1, 1]).length = 20 := by
      simp [htake]
    by_cases h18 : i < 18
    · rw [if_neg (by omega)]
      rw [snapshotBytes, List.getElem?_append_left (by omega)]
      rw [List.getElem?_append_left (by omega)]
      rw [List.getElem?_take_of_lt h18]
    · by_cases h20 : i < 20
      · rw [if_pos (by omega)]
        rw [snapshotBytes, List.getElem?_append_left (by omega),
          List.getElem?_append_right (by omega), htake]
        have : i = 18 ∨ i = 19 := by omega
        rcases this with hv | hv <;> subst hv <;> rfl
      · rw [if_neg (by omega)]
        rw [snapshotBytes, List.getElem?_append_right (by omega), hlen2]
        rw [List.getElem?_drop]
        congr 1
        omega
  · intro tmpName files contents hmem
    have := List.mem_filter.mp hmem
    simp at this

/-- Witness for C8 on a concrete 20-byte database. -/
theorem snapshot_patches_bytes_18_19_witness :
    (snapshotBytes (List.range 20)).length = 20
    ∧ (snapshotBytes (List.range 20))[18]? = some 1
    ∧ (snapshotBytes (List.range 20))[17]? = some 17 := by
  have h := snapshot_patches_bytes_18_19 (List.range 20) (by simp)
  refine ⟨by simpa using h.1, ?_, ?_⟩
  · have := h.2.1 18 (by simp)
    simpa using this
  · have := h.2.1 17 (by simp)
    simpa using this

/-! ## ACSM fulfillment (`core/adobe/fulfill.py`) -/

/-- The Python exceptions `ACSMFulfiller.fulfill` can raise or see. -/
inductive PyExc where
  | authorizationError (msg : String)
  | acsmFulfillmentError (msg : String)
  | otherError (msg : String)
deriving DecidableEq

def PyExc.message : PyExc → String
  | .authorizationError m => m
  | .acsmFulfillmentError m => m
  | .otherError m => m

/-- Externally visible side effects of `fulfill`: creating the output
directory, talking to the network, writing a file. -/
inductive FsEvent where
  | mkdirOutputDir
  | networkCall
  | fileWrite
deriving DecidableEq

/-- `ACSMFulfiller.fulfill` from `core/adobe/fulfill.py`: the two guards,
then `output_dir.mkdir`, then the `try` block.  `body` abstracts
everything inside the `try` (`update_account_path`,
`libadobeFulfill.fulfill`, `download` and the existence check) as the
exception it raises or the output path it returns, and `bodyEvents` the
network/filesystem events it performs; the `except` clauses re-raise
`ACSMFulfillmentError` unchanged and wrap every other exception. -/
def fulfill (authorized acsmExists : Bool) (acsmPath : String)
    (bodyEvents : List FsEvent) (body : Except PyExc String) :
    List FsEvent × Except PyExc String :=
  if authorized = false then
    ([], .error (.acsmFulfillmentError "Not authorized, please authorize first"))
  else if acsmExists = false then
    ([], .error (.acsmFulfillmentError ("ACSM file not found: " ++ acsmPath)))
  else
    (FsEvent.mkdirOutputDir :: bodyEvents,
      match body with
      | .ok p => .ok p
      | .error (PyExc.acsmFulfillmentError m) => .error (.acsmFulfillmentError m)
      | .error e => .error (.acsmFulfillmentError ("ACSM processing failed: " ++ e.message)))

/-- Claim C10: `fulfill` raises `ACSMFulfillmentError` — never
`AuthorizationError` — when the account is not authorized or the ACSM path
does not exist, in both cases before any event (no directory creation, no
network, no file write); every non-`ACSMFulfillmentError` exception from
the fulfillment body is re-raised wrapped as `ACSMFulfillmentError`, while
an `ACSMFulfillmentError` from the body propagates unchanged. -/
theorem fulfill_error_discipline (authorized acsmExists : Bool) (acsmPath : String)
    (bodyEvents : List FsEvent) (body : Except PyExc String) :
    (authorized = false →
      fulfill authorized acsmExists acsmPath bodyEvents body
        = ([], .error (.acsmFulfillmentError "Not authorized, please authorize first")))
    ∧ (authorized = true → acsmExists = false →
      fulfill authorized acsmExists acsmPath bodyEvents body
        = ([], .error (.acsmFulfillmentError ("ACSM file not found: " ++ acsmPath))))
    ∧ (∀ m, (fulfill authorized acsmExists acsmPath bodyEvents body).2
        ≠ .error (.authorizationError m))
    ∧ (∀ e, body = .error e →
        ∃ m, (fulfill authorized acsmExists acsmPath bodyEvents body).2
          = .error (.acsmFulfillmentError m))
    ∧ (∀ m, body = .error (.acsmFulfillmentError m) →
        authorized = true → acsmExists = true →
        (fulfill authorized acsmExists acsmPath bodyEvents body).2
          = .error (.acsmFulfillmentError m)) := by
  refine ⟨?_, ?_, ?_, ?_, ?_⟩
  · intro ha
    simp [fulfill, ha]
  · intro ha he
    simp [fulfill, ha, he]
  · intro m
    cases ha : authorized with
    | false => simp [fulfill]
    | true =>
      cases he : acsmExists with
      | false => simp [fulfill]
      | true =>
        cases body with
        | ok p => simp [fulfill]
        | error e => cases e <;> simp [fulfill]
  · intro e hb
    cases ha : authorized with
    | false => exact ⟨"Not authorized, please authorize first", by simp [fulfill]⟩
    | true =>
      cases he : acsmExists with
      | false => exact ⟨"ACSM file not found: " ++ acsmPath, by simp [fulfill]⟩
      | true =>
        subst hb
        cases e with
        | authorizationError m => exact ⟨"ACSM processing failed: " ++ m, by simp [fulfill, PyExc.message]⟩
        | acsmFulfillmentError m => exact ⟨m, by simp [fulfill]⟩
        | otherError m => exact ⟨"ACSM processing failed: " ++ m, by simp [fulfill, PyExc.message]⟩
  · intro m hb ha he
    subst hb
    simp [fulfill, ha, he]

/-- Witness for C10 at concrete inputs: an unauthorized call fails with
the fixed `ACSMFulfillmentError` and no events, and a generic body
exception is wrapped. -/
theorem fulfill_error_discipline_witness :
    fulfill false true "b.acsm" [FsEvent.networkCall] (.ok "x")
      = ([], .error (.acsmFulfillmentError "Not authorized, please authorize first"))
    ∧ ∃ m, (fulfill true true "b.acsm" [] (.error (.otherError "boom"))).2
        = .error (.acsmFulfillmentError m) := by
  constructor
  · exact (fulfill_error_discipline false true "b.acsm" [FsEvent.networkCall] (.ok "x")).1 rfl
  · exact (fulfill_error_discipline true true "b.acsm" []
      (.error (.otherError "boom"))).2.2.2.1 (.otherError "boom") rfl

end BookLoader
